import Mathlib

/-!
Verification of the spfs-enter privileged step pipeline
(`src/crates/spfs/spfs-enter/main.c` and `steps.c`).

The C program is embedded shallowly:

* Machine state (`St`) tracks the process's real/effective/saved user ids,
  the two saved-identity globals `original_uid`/`original_euid`, the POSIX
  capability set, the metadata (owner/mode) of directories touched by the
  program, and the process umask.
* Kernel uid primitives (`setuid`, `seteuid`) are modelled with their
  documented Linux semantics; privileged means effective uid 0.
* Environment-dependent syscalls whose outcome is not determined by the
  modelled state (unshare, mount, stat, mkdir failures other than EEXIST,
  fork, the mount subprocess's exit code, capability calls, execv) are
  resolved by an `Oracle` value, so every theorem quantifies over all
  possible kernel responses.
* A C function whose control flow can reach the closing brace of a
  non-void function without a `return` statement yields `none` for its
  result (the value is indeterminate per C11 6.9.1p12); the pipeline
  driver resolves such indeterminate values through oracle fields.
* Mount side effects on the directory tree are not modelled (only their
  success or failure is); no claim below depends on post-mount contents.
-/

namespace Spfs

/-- Real, effective and saved user ids of the process. -/
structure UidState where
  ruid : Int
  euid : Int
  suid : Int
  deriving DecidableEq

/-- getuid(2): returns the real uid. -/
def getuid (u : UidState) : Int := u.ruid

/-- geteuid(2): returns the effective uid. -/
def geteuid (u : UidState) : Int := u.euid

/-- seteuid(2), Linux semantics: an unprivileged process may set the
effective uid to the current real, effective or saved uid; a privileged
process (effective uid 0) may set it to any value.  Only the effective
uid changes.  `none` models failure (EPERM, the call returns -1). -/
def seteuid (e : Int) (u : UidState) : Option UidState :=
  if u.euid = 0 ∨ e = u.ruid ∨ e = u.euid ∨ e = u.suid then
    some { u with euid := e }
  else none

/-- setuid(2), Linux semantics: a privileged process (effective uid 0)
sets real, effective and saved uid; an unprivileged one may only set the
effective uid, and only to the real or saved uid. -/
def setuid (v : Int) (u : UidState) : Option UidState :=
  if u.euid = 0 then some { ruid := v, euid := v, suid := v }
  else if v = u.ruid ∨ v = u.suid then some { u with euid := v }
  else none

/-- Metadata of a directory as manipulated by mkdir/lchown/chmod. -/
structure Dir where
  owner : Int
  mode : Nat
  deriving DecidableEq

/-- Process state: uid triple, the globals `original_euid`/`original_uid`
(initialised to -1 by steps.c lines 28-29), the capability set, the
directory metadata table and the process umask. -/
structure St where
  uids : UidState
  original_euid : Int
  original_uid : Int
  caps : Finset ℕ
  fs : List (String × Dir)
  umask : Nat
  deriving DecidableEq

/-- Directory lookup in the metadata table. -/
def fsGet : List (String × Dir) → String → Option Dir
  | [], _ => none
  | e :: fs, p => if e.1 = p then some e.2 else fsGet fs p

/-- Record a newly created directory. -/
def fsSet (fs : List (String × Dir)) (p : String) (d : Dir) : List (String × Dir) :=
  (p, d) :: fs

/-- lchown: replace the owner of an existing entry, in place. -/
def fsSetOwner (fs : List (String × Dir)) (p : String) (w : Int) : List (String × Dir) :=
  fs.map (fun e => if e.1 = p then (e.1, { e.2 with owner := w }) else e)

/-- chmod: replace the mode of an existing entry, in place. -/
def fsSetMode (fs : List (String × Dir)) (p : String) (m : Nat) : List (String × Dir) :=
  fs.map (fun e => if e.1 = p then (e.1, { e.2 with mode := m }) else e)

/-- The mode a directory receives from `mkdir(path, 0777)`: the requested
bits filtered by the process umask. -/
def createdMode (umask : Nat) : Nat := 511 ^^^ (511 &&& umask)

/-- Per-invocation outcomes of the environment-dependent calls inside
`mkdir_permissive`: whether `mkdir` succeeds when the directory does not
already exist, and whether `lchown` and `chmod` succeed. -/
structure MkdirO where
  mkdirOk : Bool
  chownOk : Bool
  chmodOk : Bool
  deriving DecidableEq

/-- The lchown/chmod tail of `mkdir_permissive` (steps.c lines 337-351),
reached both when the directory pre-existed (EEXIST tolerated) and when
it was just created. -/
def mkdirChownChmod (env : MkdirO) (path : String) (s : St) : Int × St :=
  if env.chownOk then
    let s1 := { s with fs := fsSetOwner s.fs path (getuid s.uids) }
    if env.chmodOk then (0, { s1 with fs := fsSetMode s1.fs path 511 })
    else (-1, s1)
  else (-1, s)

/-- steps.c lines 324-352: `mkdir(path, 0777)` tolerating EEXIST, then
`lchown(path, getuid(), -1)`, then `chmod(path, 0777)`. -/
def mkdir_permissive (env : MkdirO) (path : String) (s : St) : Int × St :=
  match fsGet s.fs path with
  | some _ => mkdirChownChmod env path s
  | none =>
    if env.mkdirOk then
      mkdirChownChmod env path
        { s with fs := fsSet s.fs path ⟨geteuid s.uids, createdMode s.umask⟩ }
    else (-1, s)

/-- libc dirname(3) for the path shapes this program passes to it:
strip trailing slashes, strip the final component, strip the separating
slashes; a path with no remaining component yields "/" when absolute and
"." otherwise. -/
def dirname (p : String) : String :=
  let r := p.toList.reverse.dropWhile (fun c => c = '/')
  let r := r.dropWhile (fun c => c ≠ '/')
  let r := r.dropWhile (fun c => c = '/')
  if r.isEmpty then (if p.startsWith ("/") then ("/") else ("."))
  else String.mk r.reverse

/-- steps.c lines 301-322: stat the parent, then the target; return -1 if
either stat fails, else 1 when the two device ids differ and 0 when they
are equal.  `stat` gives the device id of a path, `none` on failure. -/
def is_mounted (stat : String → Option Int) (parentOf : String → String)
    (target : String) : Int :=
  match stat (parentOf target) with
  | none => -1
  | some devParent =>
    match stat target with
    | none => -1
    | some devTarget => if devTarget ≠ devParent then 1 else 0

def SPFS_DIR : String := "/spfs"
def SHOTS_DIR : String := "/shots"
def RUNTIME_DIR : String := "/tmp/spfs-runtime"
def RUNTIME_UPPER_DIR : String := "/tmp/spfs-runtime/upper"
def RUNTIME_LOWER_DIR : String := "/tmp/spfs-runtime/lower"
def RUNTIME_WORK_DIR : String := "/tmp/spfs-runtime/work"

/-- main.c lines 41-50: the global `SPFS_LOWERDIRS` after parsing the -d
flags, in order: NULL with no -d flag, otherwise the directories joined
with ":" (each later flag appended as `"%s:%s"`). -/
def accumulateLowerdirs : List String → Option String
  | [] => none
  | d :: ds => some (ds.foldl (fun acc x => acc ++ ":" ++ x) d)

/-- steps.c lines 178-206: build the overlay option string.
`sprintf(buf, "lowerdir=" RUNTIME_LOWER_DIR "%s%s", ...)` receives
`("", "")` when `SPFS_LOWERDIRS` is NULL and `(":", SPFS_LOWERDIRS)`
otherwise; when editable, `sprintf(buf, "%s,upperdir=" RUNTIME_UPPER_DIR
",workdir=" RUNTIME_WORK_DIR, lowerdir_args)` is appended.  (All the
involved allocations are large enough for the assembled content, so
plain string concatenation is a faithful model.) -/
def get_overlay_args (lowerdirs : Option String) (editable : Bool) : String :=
  let lowerdir_args :=
    match lowerdirs with
    | none => "lowerdir=" ++ RUNTIME_LOWER_DIR ++ "" ++ ""
    | some ls => "lowerdir=" ++ RUNTIME_LOWER_DIR ++ ":" ++ ls
  if !editable then lowerdir_args
  else lowerdir_args ++ ",upperdir=" ++ RUNTIME_UPPER_DIR ++ ",workdir=" ++ RUNTIME_WORK_DIR

/-- The runtime configuration parsed by main.c: the -d directories in the
order supplied, the command vector, and the mode flags. -/
structure Config where
  lowerdirs : List String
  command : List String
  editable : Bool
  virtualizeShots : Bool
  remountOnly : Bool
  maskedPaths : List String
  deriving DecidableEq

/-- Outcomes of the environment-dependent syscalls made by one pipeline
run, plus the indeterminate values produced when a step's control flow
falls off the end of its non-void C function (`ubBecomeRoot`, `ubEnsure`,
`ubSetup`). -/
structure Oracle where
  ubBecomeRoot : Int
  ubEnsure : Int
  ubSetup : Int
  unshareOk : Bool
  mountPrivRootOk : Bool
  mountPrivTmpOk : Bool
  mountPrivShotsOk : Bool
  statDev : List (String × Int)
  mkdirEnv : List (String × MkdirO)
  mountTmpfsRuntimeOk : Bool
  forkOk : Bool
  mountExitCode : Nat
  mountRuntimeOk : Bool
  maskOk : Bool
  lockOk : Bool
  unlockOk : Bool
  unmountOk : Bool
  mountShotsOk : Bool
  capClearOk : Bool
  capSetOk : Bool
  capFreeOk : Bool
  execPaths : List String
  searchPath : List String
  deriving DecidableEq

/-- First-match lookup in a string-keyed association list. -/
def lookupStr {α : Type} : List (String × α) → String → Option α
  | [], _ => none
  | e :: l, p => if e.1 = p then some e.2 else lookupStr l p

/-- The stat facility induced by the oracle's device-id table: a path
absent from the table fails to stat. -/
def statOf (o : Oracle) : String → Option Int :=
  lookupStr o.statDev

/-- The mkdir/lchown/chmod outcomes the oracle assigns to a path (all
succeeding when the path is not singled out). -/
def mkdirEnvOf (o : Oracle) (p : String) : MkdirO :=
  (lookupStr o.mkdirEnv p).getD ⟨true, true, true⟩

/-- steps.c lines 124-141 (`become_root`): save the effective uid, call
`seteuid(0)`, save the real uid, call `setuid(0)`.  The success path has
no return statement, hence result `none`. -/
def become_root (s : St) : Option Int × St :=
  let s := { s with original_euid := geteuid s.uids }
  match seteuid 0 s.uids with
  | none => (some 1, s)
  | some u1 =>
    let s := { s with uids := u1 }
    let s := { s with original_uid := getuid s.uids }
    match setuid 0 s.uids with
    | none => (some 1, s)
    | some u2 => (none, { s with uids := u2 })

/-- steps.c lines 36-47: `unshare(CLONE_NEWNS)`. -/
def enter_mount_namespace (o : Oracle) (s : St) : Option Int × St :=
  if o.unshareOk then (some 0, s) else (some 1, s)

/-- steps.c lines 49-83: privatize "/", then "/tmp" when `is_mounted("tmp")`
is nonzero (note: the -1 error value is treated as mounted here), then
SHOTS_DIR the same way when shots virtualization is requested. -/
def privatize_existing_mounts (cfg : Config) (o : Oracle) (s : St) : Option Int × St :=
  if o.mountPrivRootOk then
    (if is_mounted (statOf o) dirname ("tmp") ≠ 0 ∧ ¬ o.mountPrivTmpOk then (some 1, s)
     else if ¬ cfg.virtualizeShots then (some 0, s)
     else if is_mounted (statOf o) dirname SHOTS_DIR ≠ 0 ∧ ¬ o.mountPrivShotsOk then (some 1, s)
     else (some 0, s))
  else (some 1, s)

/-- steps.c lines 85-103 (`ensure_mount_targets_exist`):
`mkdir_permissive(SPFS_DIR)` then `mkdir_permissive(RUNTIME_DIR)`; the
path on which both succeed has no return statement, hence `none`. -/
def ensure_mount_targets_exist (o : Oracle) (s : St) : Option Int × St :=
  let r1 := mkdir_permissive (mkdirEnvOf o SPFS_DIR) SPFS_DIR s
  if r1.1 ≠ 0 then (some 1, r1.2)
  else
    let r2 := mkdir_permissive (mkdirEnvOf o RUNTIME_DIR) RUNTIME_DIR r1.2
    if r2.1 ≠ 0 then (some 1, r2.2) else (none, r2.2)

/-- steps.c lines 143-176 (`setup_runtime`): in editable mode mount a
noexec tmpfs at RUNTIME_DIR; create the lower dir; in non-editable mode
return 0; otherwise create the upper and work dirs, after which control
falls off the end (no return statement, hence `none`). -/
def setup_runtime (cfg : Config) (o : Oracle) (s : St) : Option Int × St :=
  if cfg.editable ∧ ¬ o.mountTmpfsRuntimeOk then (some 1, s)
  else
    let r1 := mkdir_permissive (mkdirEnvOf o RUNTIME_LOWER_DIR) RUNTIME_LOWER_DIR s
    if r1.1 ≠ 0 then (some 1, r1.2)
    else if ¬ cfg.editable then (some 0, r1.2)
    else
      let r2 := mkdir_permissive (mkdirEnvOf o RUNTIME_UPPER_DIR) RUNTIME_UPPER_DIR r1.2
      if r2.1 ≠ 0 then (some 1, r2.2)
      else
        let r3 := mkdir_permissive (mkdirEnvOf o RUNTIME_WORK_DIR) RUNTIME_WORK_DIR r2.2
        if r3.1 ≠ 0 then (some 1, r3.2) else (none, r3.2)

/-- The argument vector passed by `mount_env` to execl (steps.c line 219):
`/usr/bin/mount -t overlay -o <overlay args> none /spfs`, literally. -/
def mount_argv (cfg : Config) : List String :=
  ["/usr/bin/mount", "-t", "overlay", "-o",
    get_overlay_args (accumulateLowerdirs cfg.lowerdirs) cfg.editable, "none", SPFS_DIR]

/-- The raw status word `waitpid` stores for a child that exited normally
with the given code: `W_EXITCODE(code, 0) = code << 8` (only the low 8
bits of the exit code are preserved). -/
def waitStatusOfExit (code : Nat) : Int := ((code % 256) * 256 : Nat)

/-- The exit code the operating system reports for a process whose main
returned `r`: the low 8 bits of `r`. -/
def observedExitCode (r : Int) : Int := r % 256

/-- steps.c lines 208-229 (`mount_env`): fork; the child execs
`mount_argv`; a failed fork returns 1; otherwise waitpid's raw status for
the mount child is returned as the step result. -/
def mount_env (o : Oracle) (s : St) : Option Int × St :=
  if o.forkOk then (some (waitStatusOfExit o.mountExitCode), s)
  else (some 1, s)

/-- steps.c lines 231-248 (`mount_shots_if_necessary`): a no-op success
unless shots virtualization was requested, in which case the result of
`mount("none", SHOTS_DIR, "tmpfs", 0, 0)` (0 or -1) is returned. -/
def mount_shots_if_necessary (cfg : Config) (o : Oracle) (s : St) : Option Int × St :=
  if ¬ cfg.virtualizeShots then (some 0, s)
  else if o.mountShotsOk then (some 0, s) else (some (-1), s)

/-- steps.c lines 250-267 (`become_original_user`): `setuid(original_uid)`
then `seteuid(original_euid)`, returning 1 on the first failure and 0 on
success. -/
def become_original_user (s : St) : Option Int × St :=
  match setuid s.original_uid s.uids with
  | none => (some 1, s)
  | some u1 =>
    let s := { s with uids := u1 }
    match seteuid s.original_euid s.uids with
    | none => (some 1, s)
    | some u2 => (some 0, { s with uids := u2 })

/-- steps.c lines 269-291 (`drop_all_capabilities`): `cap_get_proc` a copy
of the process capability set, `cap_clear` it, `cap_set_proc` the cleared
copy (this is the call that empties the process's set), `cap_free`;
-1 on the first failure, 0 on success. -/
def drop_all_capabilities (o : Oracle) (s : St) : Option Int × St :=
  if o.capClearOk then
    if o.capSetOk then
      let s := { s with caps := ∅ }
      if o.capFreeOk then (some 0, s) else (some (-1), s)
    else (some (-1), s)
  else (some (-1), s)

/-- Result of running one pipeline step: an ordinary return, or the
replacement of the process image by `execv`. -/
inductive StepRes where
  | ret (code : Int) (s : St)
  | exec (cmd : List String) (s : St)
  deriving DecidableEq

/-- steps.c lines 293-299 (`run_command`): `execv(SPFS_COMMAND[0],
SPFS_COMMAND)`.  execv resolves its first argument as a literal
filesystem path — the oracle's `searchPath` (the PATH variable) is not
consulted — and returns -1 exactly when that path is not executable. -/
def run_command (cfg : Config) (o : Oracle) (s : St) : StepRes :=
  match cfg.command with
  | [] => .ret (-1) s
  | c :: _ => if c ∈ o.execPaths then .exec cfg.command s else .ret (-1) s

/-- Modelled from the spec: `mount_runtime` is named by the Enter step
sequence (main.c line 108) but its definition is not among the available
sources.  Per spec section 4.4 it only prepares the runtime scratch
mount; it touches no process identity or capability state and returns
success or failure. -/
def mount_runtime (o : Oracle) (s : St) : Option Int × St :=
  if o.mountRuntimeOk then (some 0, s) else (some 1, s)

/-- Modelled from the spec: `mask_files` (main.c lines 96 and 111) is not
among the available sources.  Per spec section 4.7 it occludes the mask
paths inside the assembled overlay view; it touches no process identity
or capability state and returns success or failure. -/
def mask_files (o : Oracle) (s : St) : Option Int × St :=
  if o.maskOk then (some 0, s) else (some 1, s)

/-- Modelled from the spec: `set_runtime_lock` (main.c lines 97 and 112)
is not among the available sources.  Per spec section 9 it takes an
advisory file-based lock in the runtime workspace; it touches no process
identity or capability state and returns success or failure. -/
def set_runtime_lock (o : Oracle) (s : St) : Option Int × St :=
  if o.lockOk then (some 0, s) else (some 1, s)

/-- Modelled from the spec: `unlock_runtime` (main.c line 94, Remount
sequence) is not among the available sources; the advisory-lock release
counterpart of `set_runtime_lock`. -/
def unlock_runtime (o : Oracle) (s : St) : Option Int × St :=
  if o.unlockOk then (some 0, s) else (some 1, s)

/-- Modelled from the spec: `unmount_env` (main.c line 92, Remount
sequence) is not among the available sources; it unmounts the previous
overlay, touching no process identity or capability state. -/
def unmount_env (o : Oracle) (s : St) : Option Int × St :=
  if o.unmountOk then (some 0, s) else (some 1, s)

/-- Wrap a step returning `Option Int` for the driver: an indeterminate
result (missing return statement) is resolved to the oracle-chosen
machine value `ub`. -/
def toStep (ub : Int) (f : St → Option Int × St) : St → StepRes :=
  fun s => .ret ((f s).1.getD ub) (f s).2

/-- Outcome of a whole pipeline run: main returned a value, or the
process image was replaced by the target command. -/
inductive Outcome where
  | exited (code : Int)
  | execed (cmd : List String) (s : St)
  deriving DecidableEq

/-- main.c lines 129-136: run the steps in order, breaking at the first
nonzero result, which main then returns; the third argument is the value
of the uninitialised variable `result` before the first iteration. -/
def drive : List (St → StepRes) → St → Int → Outcome
  | [], _, result => .exited result
  | f :: rest, s, _ =>
    match f s with
    | .ret code s' => if code ≠ 0 then .exited code else drive rest s' code
    | .exec cmd s' => .execed cmd s'

/-- main.c lines 103-118: the Enter step sequence. -/
def enterSteps (cfg : Config) (o : Oracle) : List (St → StepRes) :=
  [ toStep o.ubBecomeRoot become_root,
    toStep 0 (enter_mount_namespace o),
    toStep 0 (privatize_existing_mounts cfg o),
    toStep o.ubEnsure (ensure_mount_targets_exist o),
    toStep 0 (mount_runtime o),
    toStep o.ubSetup (setup_runtime cfg o),
    toStep 0 (mount_env o),
    toStep 0 (mask_files o),
    toStep 0 (set_runtime_lock o),
    toStep 0 (mount_shots_if_necessary cfg o),
    toStep 0 become_original_user,
    toStep 0 (drop_all_capabilities o),
    run_command cfg o ]

/-- steps.c lines 105-122 (`ensure_mounts_already_exist`): fail when the
mount probe errors, succeed when SPFS_DIR is mounted, otherwise report
and fail. -/
def ensure_mounts_already_exist (o : Oracle) (s : St) : Option Int × St :=
  let r := is_mounted (statOf o) dirname SPFS_DIR
  if r = -1 then (some 1, s)
  else if r ≠ 0 then (some 0, s)
  else (some 1, s)

/-- main.c lines 89-102: the Remount step sequence. -/
def remountSteps (cfg : Config) (o : Oracle) : List (St → StepRes) :=
  [ toStep o.ubBecomeRoot become_root,
    toStep 0 (ensure_mounts_already_exist o),
    toStep 0 (unmount_env o),
    toStep o.ubSetup (setup_runtime cfg o),
    toStep 0 (unlock_runtime o),
    toStep 0 (mount_env o),
    toStep 0 (mask_files o),
    toStep 0 (set_runtime_lock o),
    toStep 0 (mount_shots_if_necessary cfg o),
    toStep 0 become_original_user,
    toStep 0 (drop_all_capabilities o) ]

/-- One Enter-mode run of main's step loop from initial state `s` with
`r0` the indeterminate initial value of `result`. -/
def driveEnter (cfg : Config) (o : Oracle) (s : St) (r0 : Int) : Outcome :=
  drive (enterSteps cfg o) s r0

/-- main.c lines 129-136 abstracted over the step results: given the
results the steps would return, in order, the loop consumes them until
the first nonzero one; the pair is (value returned from main, number of
steps executed).  The second argument is the indeterminate initial value
of `result`. -/
def step_loop : List Int → Int → Int × Nat
  | [], result => (result, 0)
  | r :: rest, _ =>
    if r ≠ 0 then (r, 1)
    else
      let t := step_loop rest r
      (t.1, t.2 + 1)

/-! ## Helper lemmas -/

lemma join_cons (x : String) (xs : List String) :
    String.join (x :: xs) = x ++ String.join xs := by
  apply String.ext
  simp [String.join_eq, String.data_append]

lemma foldl_colon (d : String) (ds : List String) :
    ds.foldl (fun acc x => acc ++ ":" ++ x) d
      = d ++ String.join (ds.map (fun x => ":" ++ x)) := by
  induction ds generalizing d with
  | nil => simp [String.join]
  | cons x xs ih =>
    rw [List.foldl_cons, ih, List.map_cons, join_cons]
    simp [String.append_assoc]

/-! ## C4: the overlay option string -/

/-- C4: for every ordered caller layer list and editable flag, the built
overlay option string is "lowerdir=" followed by the synthetic
placeholder directory, then the elements of the list in the supplied
order each preceded by ":" (so the lower sequence is the placeholder
alone when the list is empty), followed by the upperdir/workdir clause
exactly when editable is set. -/
theorem claim_C4_overlay_args (L : List String) (editable : Bool) :
    get_overlay_args (accumulateLowerdirs L) editable
      = "lowerdir=" ++ RUNTIME_LOWER_DIR
          ++ String.join (L.map (fun l => ":" ++ l))
          ++ (if editable then
                (",upperdir=") ++ RUNTIME_UPPER_DIR ++ (",workdir=") ++ RUNTIME_WORK_DIR
              else ("")) := by
  cases L with
  | nil =>
    cases editable <;>
      · simp only [get_overlay_args, accumulateLowerdirs, List.map_nil,
          Bool.not_false, Bool.not_true, if_true, if_false]
        simp [String.join, String.append_assoc]
  | cons d ds =>
    cases editable <;>
      · simp only [get_overlay_args, accumulateLowerdirs, List.map_cons,
          Bool.not_false, Bool.not_true, if_true, if_false]
        rw [foldl_colon, join_cons]
        simp [String.append_assoc]

/-! ## C7: the mount probe -/

/-- C7: for every stat facility, parent-resolution function and path,
`is_mounted` returns 1 (mounted) exactly when both stat lookups succeed
with different device ids, 0 (not mounted) exactly when both succeed
with equal device ids, and the distinct error value -1 exactly when the
stat lookup of the path or of its parent fails. -/
theorem claim_C7_is_mounted (stat : String → Option Int)
    (parentOf : String → String) (target : String) :
    (is_mounted stat parentOf target = 1 ↔
      ∃ dp dt, stat (parentOf target) = some dp ∧ stat target = some dt ∧ dt ≠ dp) ∧
    (is_mounted stat parentOf target = 0 ↔
      ∃ dp dt, stat (parentOf target) = some dp ∧ stat target = some dt ∧ dt = dp) ∧
    (is_mounted stat parentOf target = -1 ↔
      (stat (parentOf target) = none ∨ stat target = none)) := by
  unfold is_mounted
  rcases hp : stat (parentOf target) with _ | dp
  · simp
  · rcases ht : stat target with _ | dt
    · simp
    · by_cases h : dt = dp <;> simp [h]

/-! ## C2: the step loop -/

/-- All-zero runs of the step loop return 0 after consuming every step. -/
lemma step_loop_all_zero (rs : List Int) (h : ∀ x ∈ rs, x = 0) :
    step_loop rs 0 = (0, rs.length) := by
  induction rs with
  | nil => rfl
  | cons x rest ih =>
    have hx : x = 0 := h x (List.mem_cons_self x rest)
    have hrest : ∀ y ∈ rest, y = 0 := fun y hy => h y (List.mem_cons_of_mem x hy)
    simp [step_loop, hx, ih hrest]

/-- Zero-result prefixes are consumed without stopping. -/
lemma step_loop_first_nonzero (post : List Int) (c : Int) (hc : c ≠ 0) :
    ∀ (pre : List Int), (∀ x ∈ pre, x = 0) → ∀ r0,
      step_loop (pre ++ c :: post) r0 = (c, pre.length + 1) := by
  intro pre
  induction pre with
  | nil => intro _ r0; simp [step_loop, hc]
  | cons x rest ih =>
    intro hpre r0
    have hx : x = 0 := hpre x (List.mem_cons_self x rest)
    have hrest : ∀ y ∈ rest, y = 0 := fun y hy => hpre y (List.mem_cons_of_mem x hy)
    simp [step_loop, hx, ih hrest 0]

/-- C2: for every step sequence and every assignment of results to the
steps, main's driver loop runs the steps in order, stops at the first
step returning a nonzero value having executed exactly the steps up to
and including it, and main returns exactly that nonzero value; if every
step of a (nonempty) sequence returns zero, main returns zero. -/
theorem claim_C2_first_failure_wins :
    (∀ (pre post : List Int) (c r0 : Int), (∀ x ∈ pre, x = 0) → c ≠ 0 →
      step_loop (pre ++ c :: post) r0 = (c, pre.length + 1)) ∧
    (∀ (rs : List Int) (r0 : Int), rs ≠ [] → (∀ x ∈ rs, x = 0) →
      step_loop rs r0 = (0, rs.length)) := by
  constructor
  · intro pre post c r0 hpre hc
    exact step_loop_first_nonzero post c hc pre hpre r0
  · intro rs r0 hne hz
    cases rs with
    | nil => exact absurd rfl hne
    | cons x rest =>
      have hx : x = 0 := hz x (List.mem_cons_self x rest)
      have hrest : ∀ y ∈ rest, y = 0 := fun y hy => hz y (List.mem_cons_of_mem x hy)
      simp [step_loop, hx, step_loop_all_zero rest hrest]

/-- Witness for C2 at concrete inputs: with results [0, 5, 7] the loop
returns 5 after two steps, and with results [0, 0] it returns 0 after
two steps. -/
theorem claim_C2_witness :
    step_loop [0, 5, 7] 9 = (5, 2) ∧ step_loop [0, 0] 9 = (0, 2) :=
  ⟨claim_C2_first_failure_wins.1 [0] [7] 5 9 (by decide) (by decide),
   claim_C2_first_failure_wins.2 [0, 0] 9 (by decide) (by decide)⟩

/-! ## become_root computation lemmas -/

lemma seteuid_some {e : Int} {u u' : UidState} (h : seteuid e u = some u') :
    u' = { u with euid := e } := by
  unfold seteuid at h
  split at h <;> simp_all

lemma become_root_fail (s : St) (h : seteuid 0 s.uids = none) :
    become_root s = (some 1, { s with original_euid := s.uids.euid }) := by
  simp [become_root, geteuid, h]

lemma become_root_success (s : St) (u1 : UidState) (h : seteuid 0 s.uids = some u1) :
    become_root s = (none,
      { s with uids := ⟨0, 0, 0⟩, original_euid := s.uids.euid,
               original_uid := s.uids.ruid }) := by
  have hu1 := seteuid_some h
  subst hu1
  simp [become_root, geteuid, getuid, h, setuid]

/-! ## C5: the uid round trip -/

/-- C5: for every starting identity, a successful `become_root` followed
by a successful `become_original_user` leaves the process with the real
and effective uid it started with. -/
theorem claim_C5_uid_round_trip (s : St)
    (h1 : (become_root s).1 = none)
    (h2 : (become_original_user (become_root s).2).1 = some 0) :
    ((become_original_user (become_root s).2).2).uids.ruid = s.uids.ruid ∧
    ((become_original_user (become_root s).2).2).uids.euid = s.uids.euid := by
  rcases hse : seteuid 0 s.uids with _ | u1
  · rw [become_root_fail s hse] at h1
    exact absurd h1 (by simp)
  · rw [become_root_success s u1 hse] at h2 ⊢
    rcases hse2 : seteuid s.uids.euid
        (⟨s.uids.ruid, s.uids.ruid, s.uids.ruid⟩ : UidState) with _ | u2
    · exfalso
      simp [become_original_user, setuid, hse2] at h2
    · have hu2 := seteuid_some hse2
      simp [become_original_user, setuid, hse2, hu2]

/-- Witness for C5: starting from real uid 5, effective uid 5, saved uid
0 (a setuid-root binary that has temporarily dropped its effective uid),
both transitions succeed and the identity round-trips. -/
theorem claim_C5_witness :
    ((become_root ⟨⟨5, 5, 0⟩, -1, -1, ∅, [], 18⟩).1 = none) ∧
    ((become_original_user (become_root ⟨⟨5, 5, 0⟩, -1, -1, ∅, [], 18⟩).2).1 = some 0) ∧
    ((become_original_user (become_root ⟨⟨5, 5, 0⟩, -1, -1, ∅, [], 18⟩).2).2).uids.ruid = 5 ∧
    ((become_original_user (become_root ⟨⟨5, 5, 0⟩, -1, -1, ∅, [], 18⟩).2).2).uids.euid = 5 := by
  refine ⟨by decide, by decide, ?_, ?_⟩
  · exact (claim_C5_uid_round_trip _ (by decide) (by decide)).1
  · exact (claim_C5_uid_round_trip _ (by decide) (by decide)).2

/-! ## C1: the command runs only with privilege fully relinquished -/

/-- The privilege-relevant projection of the state: uid triple, saved
identities and capability set. -/
def proj (s : St) : UidState × Int × Int × Finset ℕ :=
  (s.uids, s.original_uid, s.original_euid, s.caps)

/-- A step body that never touches identity, saved identity or
capabilities. -/
def PreservesPriv (f : St → Option Int × St) : Prop :=
  ∀ s, proj (f s).2 = proj s

/-- A driver-level step that always returns (never execs) and preserves
the privilege projection. -/
def RetPreserves (g : St → StepRes) : Prop :=
  ∀ s, ∃ c s', g s = .ret c s' ∧ proj s' = proj s

lemma mkdirChownChmod_proj (env : MkdirO) (path : String) (s : St) :
    proj (mkdirChownChmod env path s).2 = proj s := by
  unfold mkdirChownChmod
  split_ifs <;> rfl

lemma mkdir_permissive_proj (env : MkdirO) (path : String) (s : St) :
    proj (mkdir_permissive env path s).2 = proj s := by
  unfold mkdir_permissive
  rcases fsGet s.fs path with _ | d
  · split_ifs
    · exact mkdirChownChmod_proj env path _
    · rfl
  · exact mkdirChownChmod_proj env path s

lemma enter_mount_namespace_proj (o : Oracle) :
    PreservesPriv (enter_mount_namespace o) := by
  intro s; unfold enter_mount_namespace; split_ifs <;> rfl

lemma privatize_existing_mounts_proj (cfg : Config) (o : Oracle) :
    PreservesPriv (privatize_existing_mounts cfg o) := by
  intro s; unfold privatize_existing_mounts; split_ifs <;> rfl

lemma ensure_mount_targets_exist_proj (o : Oracle) :
    PreservesPriv (ensure_mount_targets_exist o) := by
  intro s
  unfold ensure_mount_targets_exist
  dsimp only
  split_ifs <;>
    first
      | rfl
      | exact mkdir_permissive_proj _ _ _
      | exact (mkdir_permissive_proj _ _ _).trans (mkdir_permissive_proj _ _ _)

lemma mount_runtime_proj (o : Oracle) : PreservesPriv (mount_runtime o) := by
  intro s; unfold mount_runtime; split_ifs <;> rfl

lemma setup_runtime_proj (cfg : Config) (o : Oracle) :
    PreservesPriv (setup_runtime cfg o) := by
  intro s
  unfold setup_runtime
  dsimp only
  split_ifs <;>
    first
      | rfl
      | exact mkdir_permissive_proj _ _ _
      | exact (mkdir_permissive_proj _ _ _).trans (mkdir_permissive_proj _ _ _)
      | exact ((mkdir_permissive_proj _ _ _).trans (mkdir_permissive_proj _ _ _)).trans
          (mkdir_permissive_proj _ _ _)

lemma mount_env_proj (o : Oracle) : PreservesPriv (mount_env o) := by
  intro s; unfold mount_env; split_ifs <;> rfl

lemma mask_files_proj (o : Oracle) : PreservesPriv (mask_files o) := by
  intro s; unfold mask_files; split_ifs <;> rfl

lemma set_runtime_lock_proj (o : Oracle) : PreservesPriv (set_runtime_lock o) := by
  intro s; unfold set_runtime_lock; split_ifs <;> rfl

lemma mount_shots_if_necessary_proj (cfg : Config) (o : Oracle) :
    PreservesPriv (mount_shots_if_necessary cfg o) := by
  intro s; unfold mount_shots_if_necessary; split_ifs <;> rfl

lemma toStep_retPreserves (ub : Int) (f : St → Option Int × St)
    (hf : PreservesPriv f) : RetPreserves (toStep ub f) :=
  fun s => ⟨(f s).1.getD ub, (f s).2, rfl, hf s⟩

/-- Running a prefix of privilege-preserving, always-returning steps:
if the whole run ends in an exec, the prefix was passed through with the
privilege projection intact. -/
lemma drive_middle (l : List (St → StepRes)) (hl : ∀ g ∈ l, RetPreserves g) :
    ∀ (rest : List (St → StepRes)) (s : St) (r : Int) (cmd : List String) (sf : St),
      drive (l ++ rest) s r = .execed cmd sf →
      ∃ s' r', proj s' = proj s ∧ drive rest s' r' = .execed cmd sf := by
  induction l with
  | nil => exact fun rest s r cmd sf h => ⟨s, r, rfl, h⟩
  | cons g gs ih =>
    intro rest s r cmd sf h
    obtain ⟨c, s1, hg, hproj⟩ := hl g (List.mem_cons_self g gs) s
    rw [List.cons_append] at h
    rw [drive, hg] at h
    dsimp only at h
    by_cases hc : c = 0
    · rw [if_neg (not_not_intro hc)] at h
      obtain ⟨s', r', hp, hd⟩ :=
        ih (fun g' hg' => hl g' (List.mem_cons_of_mem g hg')) rest s1 c cmd sf h
      exact ⟨s', r', hp.trans hproj, hd⟩
    · rw [if_pos hc] at h
      exact absurd h (by simp)

/-- `run_command` leaves the state untouched in both of its outcomes. -/
lemma run_command_cases (cfg : Config) (o : Oracle) (s : St) :
    run_command cfg o s = .ret (-1) s ∨ run_command cfg o s = .exec cfg.command s := by
  unfold run_command
  rcases cfg.command with _ | ⟨c, cs⟩
  · exact Or.inl rfl
  · dsimp only
    split_ifs <;> simp

/-- C1: on every execution path of the Enter pipeline — every starting
state and every assignment of outcomes to the environment-dependent
syscalls — the target command is executed only with the real and
effective uid equal to their initial (pre-escalation) values and with
the capability set empty, i.e. only after `become_original_user` and
`drop_all_capabilities` have both succeeded. -/
theorem claim_C1_exec_fully_unprivileged (cfg : Config) (o : Oracle) (s0 : St)
    (r0 : Int) (cmd : List String) (sf : St)
    (h : driveEnter cfg o s0 r0 = .execed cmd sf) :
    sf.uids.ruid = s0.uids.ruid ∧ sf.uids.euid = s0.uids.euid ∧ sf.caps = ∅ := by
  have hmid : ∀ g ∈ [ toStep 0 (enter_mount_namespace o),
      toStep 0 (privatize_existing_mounts cfg o),
      toStep o.ubEnsure (ensure_mount_targets_exist o),
      toStep 0 (mount_runtime o),
      toStep o.ubSetup (setup_runtime cfg o),
      toStep 0 (mount_env o),
      toStep 0 (mask_files o),
      toStep 0 (set_runtime_lock o),
      toStep 0 (mount_shots_if_necessary cfg o) ], RetPreserves g := by
    intro g hg
    simp only [List.mem_cons, List.not_mem_nil, or_false] at hg
    rcases hg with rfl | rfl | rfl | rfl | rfl | rfl | rfl | rfl | rfl
    · exact toStep_retPreserves _ _ (enter_mount_namespace_proj o)
    · exact toStep_retPreserves _ _ (privatize_existing_mounts_proj cfg o)
    · exact toStep_retPreserves _ _ (ensure_mount_targets_exist_proj o)
    · exact toStep_retPreserves _ _ (mount_runtime_proj o)
    · exact toStep_retPreserves _ _ (setup_runtime_proj cfg o)
    · exact toStep_retPreserves _ _ (mount_env_proj o)
    · exact toStep_retPreserves _ _ (mask_files_proj o)
    · exact toStep_retPreserves _ _ (set_runtime_lock_proj o)
    · exact toStep_retPreserves _ _ (mount_shots_if_necessary_proj cfg o)
  unfold driveEnter enterSteps at h
  rw [drive] at h
  dsimp only [toStep] at h
  rcases hse : seteuid 0 s0.uids with _ | u1
  · rw [become_root_fail s0 hse] at h
    simp at h
  · rw [become_root_success s0 u1 hse] at h
    simp only [Option.getD_none] at h
    by_cases hub : o.ubBecomeRoot = 0
    · rw [if_neg (not_not_intro hub)] at h
      have hsplit : drive
          ([ toStep 0 (enter_mount_namespace o),
             toStep 0 (privatize_existing_mounts cfg o),
             toStep o.ubEnsure (ensure_mount_targets_exist o),
             toStep 0 (mount_runtime o),
             toStep o.ubSetup (setup_runtime cfg o),
             toStep 0 (mount_env o),
             toStep 0 (mask_files o),
             toStep 0 (set_runtime_lock o),
             toStep 0 (mount_shots_if_necessary cfg o) ] ++
           [ toStep 0 become_original_user,
             toStep 0 (drop_all_capabilities o),
             run_command cfg o ])
          { s0 with uids := ⟨0, 0, 0⟩, original_euid := s0.uids.euid,
                    original_uid := s0.uids.ruid }
          o.ubBecomeRoot = .execed cmd sf := h
      obtain ⟨s', r', hp, hd⟩ := drive_middle _ hmid _ _ _ _ _ hsplit
      simp only [proj, Prod.mk.injEq] at hp
      obtain ⟨hu, ho1, ho2, hcaps⟩ := hp
      rw [drive] at hd
      dsimp only [toStep] at hd
      have hsu : setuid s'.original_uid s'.uids
          = some ⟨s0.uids.ruid, s0.uids.ruid, s0.uids.ruid⟩ := by
        rw [ho1, hu]; simp [setuid]
      rcases hse2 : seteuid s'.original_euid
          (⟨s0.uids.ruid, s0.uids.ruid, s0.uids.ruid⟩ : UidState) with _ | u2
      · simp [become_original_user, hsu, hse2] at hd
      · have hu2 := seteuid_some hse2
        have hbou : become_original_user s' = (some 0, { s' with uids := u2 }) := by
          simp [become_original_user, hsu, hse2]
        rw [hbou] at hd
        simp only [Option.getD_some, ne_eq, not_true_eq_false] at hd
        rw [if_neg (by simp)] at hd
        rw [drive] at hd
        dsimp only [toStep] at hd
        by_cases hc1 : o.capClearOk
        · by_cases hc2 : o.capSetOk
          · by_cases hc3 : o.capFreeOk
            · have hdac : drop_all_capabilities o { s' with uids := u2 }
                  = (some 0, { s' with uids := u2, caps := ∅ }) := by
                simp [drop_all_capabilities, hc1, hc2, hc3]
              rw [hdac] at hd
              simp only [Option.getD_some] at hd
              rw [if_neg (by simp)] at hd
              rw [drive] at hd
              rcases run_command_cases cfg o { s' with uids := u2, caps := ∅ }
                  with hrc | hrc <;> rw [hrc] at hd
              · dsimp only at hd
                rw [if_pos (by norm_num)] at hd
                exact absurd hd (by simp)
              · dsimp only at hd
                injection hd with hcmd hsf
                subst hu2
                refine ⟨?_, ?_, ?_⟩ <;> simp [← hsf, ho2]
            · simp [drop_all_capabilities, hc1, hc2, hc3] at hd
          · simp [drop_all_capabilities, hc1, hc2] at hd
        · simp [drop_all_capabilities, hc1] at hd
    · rw [if_pos hub] at h
      exact absurd h (by simp)

/-! ## Concrete inputs used by witnesses and counterexamples -/

/-- An oracle on which every environment-dependent call succeeds, the
mount child exits 0, `/bin/true` is an executable path, and the
indeterminate fall-off-the-end values happen to be 0. -/
def okOracle : Oracle :=
  ⟨0, 0, 0, true, true, true, true, [], [], true, true, 0,
   true, true, true, true, true, true, true, true, true, ["/bin/true"], []⟩

/-- Enter-mode configuration: two caller layers, non-editable, command
`/bin/true`. -/
def cfgA : Config := ⟨["/a", "/b"], ["/bin/true"], false, false, false, []⟩

/-- Invoking state: real uid 5, effective uid 5, saved uid 0 (the
setuid-root binary with its effective uid temporarily dropped), two
capabilities held, umask 022. -/
def stA : St := ⟨⟨5, 5, 0⟩, -1, -1, {0, 21}, [], 18⟩

/-- The state in which the Enter pipeline run from `stA` under
`okOracle` executes the target command. -/
def sfA : St :=
  ⟨⟨5, 5, 5⟩, 5, 5, ∅,
   [("/tmp/spfs-runtime/lower", ⟨0, 511⟩), ("/tmp/spfs-runtime", ⟨0, 511⟩),
    ("/spfs", ⟨0, 511⟩)], 18⟩

/-- Witness for C1: a complete Enter run that reaches the exec, at which
point the real and effective uid are back at 5 and the capability set is
empty. -/
theorem claim_C1_witness :
    driveEnter cfgA okOracle stA 0 = .execed ["/bin/true"] sfA ∧
    sfA.uids.ruid = stA.uids.ruid ∧ sfA.uids.euid = stA.uids.euid ∧ sfA.caps = ∅ := by
  have h : driveEnter cfgA okOracle stA 0 = .execed ["/bin/true"] sfA := by decide
  exact ⟨h, claim_C1_exec_fully_unprivileged cfgA okOracle stA 0 ["/bin/true"] sfA h⟩

/-! ## C3: the mount child's raw wait status is returned as is -/

/-- C3 (divergence): when the mount subprocess exits with code 1,
`mount_env` returns the raw wait status 256 (not the exit code), the
pipeline aborts with main returning 256, and the operating system
reports exit code 256 mod 256 = 0 — the failure is therefore invisible
to the caller instead of surfacing as the subprocess's code 1.  The
subprocess is nevertheless invoked with the literal argument vector the
claim describes. -/
theorem claim_C3_raw_wait_status_returned :
    driveEnter cfgA { okOracle with mountExitCode := 1 } stA 0 = .exited 256 ∧
    waitStatusOfExit 1 = 256 ∧
    observedExitCode 256 = 0 ∧
    mount_argv cfgA = ["/usr/bin/mount", "-t", "overlay", "-o",
      "lowerdir=/tmp/spfs-runtime/lower:/a:/b", "none", "/spfs"] := by
  refine ⟨by decide, by decide, by decide, ?_⟩
  decide

/-! ## C8: three step functions have no return on their success path -/

/-- C8 (divergence): on inputs where every underlying operation
succeeds, `become_root`, `ensure_mount_targets_exist` and
`setup_runtime` reach the end of their non-void function bodies without
a return statement — their result is indeterminate (`none`), not the
defined 0 the step contract requires. -/
theorem claim_C8_missing_success_returns :
    (become_root stA).1 = none ∧
    (ensure_mount_targets_exist okOracle stA).1 = none ∧
    (setup_runtime { cfgA with editable := true } okOracle stA).1 = none := by
  decide

/-! ## C6: when become_root captures the saved identity -/

/-- The observable events of the become_root body, in program order. -/
inductive UidEvent where
  | readEuid
  | setEuidCall
  | readUid
  | setUidCall
  deriving DecidableEq

/-- Instrumented trace of `become_root` (steps.c lines 124-141): the
events it performs in order, each paired with the uid state before and
after it.  A failing setter leaves the state unchanged and ends the
trace (the function returns 1 there). -/
def become_root_events (u0 : UidState) : List (UidEvent × UidState × UidState) :=
  (.readEuid, u0, u0) ::
    (match seteuid 0 u0 with
     | none => [(.setEuidCall, u0, u0)]
     | some u1 =>
       (.setEuidCall, u0, u1) :: (.readUid, u1, u1) ::
         (match setuid 0 u1 with
          | none => [(.setUidCall, u1, u1)]
          | some u2 => [(.setUidCall, u1, u2)]))

/-- An event that changed the uid state. -/
def Mutates (e : UidEvent × UidState × UidState) : Prop := e.2.1 ≠ e.2.2

/-- Claim C6 as stated: both identity reads (`geteuid` into
`original_euid` and `getuid` into `original_uid`) occur before the
first call that changes either the effective or the real uid. -/
def ReadsBeforeAnyMutation (u0 : UidState) : Prop :=
  ∀ (i j : ℕ) (ei ej : UidEvent × UidState × UidState),
    (become_root_events u0)[i]? = some ei →
    (become_root_events u0)[j]? = some ej →
    (ei.1 = UidEvent.readEuid ∨ ei.1 = UidEvent.readUid) → Mutates ej → i < j

lemma getElem?_two {α : Type} {a b x : α} {i : ℕ}
    (h : ([a, b] : List α)[i]? = some x) :
    (i = 0 ∧ x = a) ∨ (i = 1 ∧ x = b) := by
  rcases i with _ | _ | i <;> simp_all

lemma getElem?_four {α : Type} {a b c d x : α} {i : ℕ}
    (h : ([a, b, c, d] : List α)[i]? = some x) :
    (i = 0 ∧ x = a) ∨ (i = 1 ∧ x = b) ∨ (i = 2 ∧ x = c) ∨ (i = 3 ∧ x = d) := by
  rcases i with _ | _ | _ | _ | i <;> simp_all

/-- C6 counterexample: starting from real uid 5, effective uid 5, saved
uid 0, the `seteuid(0)` call changes the effective uid (5 to 0) and the
`getuid()` read into `original_uid` happens only after it, so the claim
as stated fails on this input. -/
theorem claim_C6_counterexample : ¬ ReadsBeforeAnyMutation ⟨5, 5, 0⟩ := by
  intro h
  have h21 := h 2 1 (.readUid, ⟨5, 0, 0⟩, ⟨5, 0, 0⟩)
    (.setEuidCall, ⟨5, 5, 0⟩, ⟨5, 0, 0⟩) (by decide) (by decide)
    (Or.inr rfl) (by unfold Mutates; decide)
  omega

/-- C6 amended: the effective uid is read into the saved state first,
before any uid mutation; the real uid is read after the `seteuid(0)`
call but before `setuid(0)`, the only call that changes the real uid
(a `seteuid` call never changes the real uid); each read occurs exactly
once (index 0 and index 2 respectively, never recomputed); consequently,
when `become_root` succeeds, the saved values equal the pre-escalation
effective and real uid. -/
theorem claim_C6_amended :
    (∀ u0 : UidState, (become_root_events u0)[0]? = some (.readEuid, u0, u0)) ∧
    (∀ (u0 : UidState) (e : UidEvent × UidState × UidState),
      e ∈ become_root_events u0 → e.1 = UidEvent.setEuidCall →
      e.2.1.ruid = e.2.2.ruid) ∧
    (∀ (u0 : UidState) (i j : ℕ) (ei ej : UidEvent × UidState × UidState),
      (become_root_events u0)[i]? = some ei →
      (become_root_events u0)[j]? = some ej →
      ei.1 = UidEvent.readUid → ej.1 = UidEvent.setUidCall → i < j) ∧
    (∀ (u0 : UidState) (i : ℕ) (ei : UidEvent × UidState × UidState),
      (become_root_events u0)[i]? = some ei →
      (ei.1 = UidEvent.readEuid → i = 0) ∧ (ei.1 = UidEvent.readUid → i = 2)) ∧
    (∀ s : St, (become_root s).1 = none →
      (become_root s).2.original_euid = s.uids.euid ∧
      (become_root s).2.original_uid = s.uids.ruid) := by
  refine ⟨?_, ?_, ?_, ?_, ?_⟩
  · intro u0
    simp [become_root_events]
  · intro u0 e he h1
    unfold become_root_events at he
    rcases hse : seteuid 0 u0 with _ | u1
    · rw [hse] at he
      simp only [List.mem_cons, List.not_mem_nil, or_false] at he
      rcases he with rfl | rfl
      · exact absurd h1 (by simp)
      · rfl
    · have hu1 := seteuid_some hse
      subst hu1
      rw [hse] at he
      simp only [] at he
      rw [show setuid 0 ({ u0 with euid := 0 } : UidState) = some ⟨0, 0, 0⟩ by
        simp [setuid]] at he
      simp only [List.mem_cons, List.not_mem_nil, or_false] at he
      rcases he with rfl | rfl | rfl | rfl
      · exact absurd h1 (by simp)
      · rfl
      · exact absurd h1 (by simp)
      · exact absurd h1 (by simp)
  · intro u0 i j ei ej hi hj h1 h2
    unfold become_root_events at hi hj
    rcases hse : seteuid 0 u0 with _ | u1 <;> rw [hse] at hi hj
    · rcases getElem?_two hi with ⟨rfl, rfl⟩ | ⟨rfl, rfl⟩ <;> exact absurd h1 (by simp)
    · have hu1 := seteuid_some hse
      subst hu1
      simp only [] at hi hj
      rw [show setuid 0 ({ u0 with euid := 0 } : UidState) = some ⟨0, 0, 0⟩ by
        simp [setuid]] at hi hj
      simp only [] at hi hj
      rcases getElem?_four hi with ⟨rfl, rfl⟩ | ⟨rfl, rfl⟩ | ⟨rfl, rfl⟩ | ⟨rfl, rfl⟩ <;>
        rcases getElem?_four hj with ⟨rfl, rfl⟩ | ⟨rfl, rfl⟩ | ⟨rfl, rfl⟩ | ⟨rfl, rfl⟩ <;>
        first
          | omega
          | simp_all
  · intro u0 i ei hi
    unfold become_root_events at hi
    rcases hse : seteuid 0 u0 with _ | u1 <;> rw [hse] at hi
    · rcases getElem?_two hi with ⟨rfl, rfl⟩ | ⟨rfl, rfl⟩ <;>
        constructor <;> intro h' <;>
        first | rfl | (exact absurd h' (by simp))
    · have hu1 := seteuid_some hse
      subst hu1
      simp only [] at hi
      rw [show setuid 0 ({ u0 with euid := 0 } : UidState) = some ⟨0, 0, 0⟩ by
        simp [setuid]] at hi
      simp only [] at hi
      rcases getElem?_four hi with ⟨rfl, rfl⟩ | ⟨rfl, rfl⟩ | ⟨rfl, rfl⟩ | ⟨rfl, rfl⟩ <;>
        constructor <;> intro h' <;>
        first | rfl | (exact absurd h' (by simp))
  · intro s hs
    rcases hse : seteuid 0 s.uids with _ | u1
    · rw [become_root_fail s hse] at hs
      exact absurd hs (by simp)
    · rw [become_root_success s u1 hse]
      exact ⟨rfl, rfl⟩

/-- Witness for C6's amended theorem at a concrete input: the trace from
(5, 5, 0) has its `getuid` read at index 2, before the `setuid` call at
index 3, and the successful `become_root` saved exactly (5, 5). -/
theorem claim_C6_amended_witness :
    ((become_root_events ⟨5, 5, 0⟩)[2]? = some (.readUid, ⟨5, 0, 0⟩, ⟨5, 0, 0⟩)) ∧
    ((become_root_events ⟨5, 5, 0⟩)[3]? = some (.setUidCall, ⟨5, 0, 0⟩, ⟨0, 0, 0⟩)) ∧
    (2 < 3) ∧
    ((become_root stA).1 = none ∧
      (become_root stA).2.original_euid = 5 ∧ (become_root stA).2.original_uid = 5) := by
  refine ⟨by decide, by decide, ?_, by decide, ?_, ?_⟩
  · exact claim_C6_amended.2.2.1 ⟨5, 5, 0⟩ 2 3 (.readUid, ⟨5, 0, 0⟩, ⟨5, 0, 0⟩)
      (.setUidCall, ⟨5, 0, 0⟩, ⟨0, 0, 0⟩) (by decide) (by decide) rfl rfl
  · exact ((claim_C6_amended.2.2.2.2 stA (by decide)).1).trans (by decide)
  · exact ((claim_C6_amended.2.2.2.2 stA (by decide)).2).trans (by decide)

/-! ## C9: what mkdir_permissive guarantees -/

lemma fsGet_fsSet_self (fs : List (String × Dir)) (p : String) (d : Dir) :
    fsGet (fsSet fs p d) p = some d := by
  simp [fsGet, fsSet]

lemma fsGet_fsSetOwner_self (fs : List (String × Dir)) (p : String) (w : Int) :
    ∀ d, fsGet fs p = some d → fsGet (fsSetOwner fs p w) p = some { d with owner := w } := by
  induction fs with
  | nil => intro d h; simp [fsGet] at h
  | cons e l ih =>
    intro d h
    by_cases hp : e.1 = p
    · rw [fsGet, if_pos hp] at h
      injection h with h
      simp [fsSetOwner, fsGet, hp, h]
    · rw [fsGet, if_neg hp] at h
      simpa [fsSetOwner, fsGet, hp] using ih d h

lemma fsGet_fsSetMode_self (fs : List (String × Dir)) (p : String) (m : Nat) :
    ∀ d, fsGet fs p = some d → fsGet (fsSetMode fs p m) p = some { d with mode := m } := by
  induction fs with
  | nil => intro d h; simp [fsGet] at h
  | cons e l ih =>
    intro d h
    by_cases hp : e.1 = p
    · rw [fsGet, if_pos hp] at h
      injection h with h
      simp [fsSetMode, fsGet, hp, h]
    · rw [fsGet, if_neg hp] at h
      simpa [fsSetMode, fsGet, hp] using ih d h

/-- The uid state is untouched by `mkdir_permissive`. -/
lemma mkdir_permissive_uids (env : MkdirO) (path : String) (s : St) :
    (mkdir_permissive env path s).2.uids = s.uids :=
  congrArg (fun q => q.1) (mkdir_permissive_proj env path s)

/-- Successful `mkdir_permissive`: tolerates a pre-existing directory,
returns 0, and leaves the directory with mode 0777 (whatever the umask)
owned by the process's current real uid. -/
lemma mkdir_permissive_success (env : MkdirO) (path : String) (s : St)
    (hok : (fsGet s.fs path).isSome ∨ env.mkdirOk = true)
    (hch : env.chownOk = true) (hcm : env.chmodOk = true) :
    (mkdir_permissive env path s).1 = 0 ∧
    fsGet (mkdir_permissive env path s).2.fs path = some ⟨getuid s.uids, 511⟩ := by
  unfold mkdir_permissive
  rcases hget : fsGet s.fs path with _ | d0
  · have hmk : env.mkdirOk = true := by
      rcases hok with h | h
      · rw [hget] at h; simp at h
      · exact h
    simp only []
    rw [if_pos hmk]
    unfold mkdirChownChmod
    rw [if_pos hch]
    dsimp only
    rw [if_pos hcm]
    refine ⟨rfl, ?_⟩
    have h1 := fsGet_fsSet_self s.fs path ⟨geteuid s.uids, createdMode s.umask⟩
    have h2 := fsGet_fsSetOwner_self _ path (getuid s.uids) _ h1
    have h3 := fsGet_fsSetMode_self _ path 511 _ h2
    simpa using h3
  · simp only []
    unfold mkdirChownChmod
    rw [if_pos hch]
    dsimp only
    rw [if_pos hcm]
    refine ⟨rfl, ?_⟩
    have h2 := fsGet_fsSetOwner_self _ path (getuid s.uids) _ hget
    have h3 := fsGet_fsSetMode_self _ path 511 _ h2
    simpa using h3

/-- Claim C9 as stated: a successful directory-ensure performed after
`become_root` leaves the directory owned by the real unprivileged uid of
the invoking user (the pre-escalation real uid). -/
def MkdirOwnerMatchesInvoker : Prop :=
  ∀ (s0 : St) (env : MkdirO) (path : String),
    (become_root s0).1 = none →
    (mkdir_permissive env path (become_root s0).2).1 = 0 →
    ∃ d, fsGet (mkdir_permissive env path (become_root s0).2).2.fs path = some d ∧
      d.owner = s0.uids.ruid

/-- The invoking state of a setuid-root installation: real uid 5,
effective and saved uid 0. -/
def stRoot5 : St := ⟨⟨5, 0, 0⟩, -1, -1, ∅, [], 18⟩

/-- C9 counterexample: after `become_root` the process's real uid is 0,
so the successful directory-ensure chowns the directory to 0, not to the
invoking user's real uid 5. -/
theorem claim_C9_counterexample : ¬ MkdirOwnerMatchesInvoker := by
  intro h
  obtain ⟨d, hd, howner⟩ := h stRoot5 ⟨true, true, true⟩ "/spfs" (by decide) (by decide)
  have hval : fsGet
      (mkdir_permissive ⟨true, true, true⟩ "/spfs" (become_root stRoot5).2).2.fs ("/spfs")
      = some ⟨0, 511⟩ := by decide
  have hd2 := hd.symm.trans hval
  injection hd2 with hd'
  rw [hd'] at howner
  exact absurd howner (by decide)

/-- C9 amended: the directory-ensure operation succeeds when the
directory already exists; after any successful call the directory's mode
is world rwx (0777) regardless of the process umask and its owner is the
process's current real uid at the time of the call (which is root, not
the invoking user, when the call happens after `become_root`); a second
call on the same path also succeeds and leaves identical owner and
permissions. -/
theorem claim_C9_amended (env env2 : MkdirO) (path : String) (s : St)
    (hok : (fsGet s.fs path).isSome = true ∨ env.mkdirOk = true)
    (hch : env.chownOk = true) (hcm : env.chmodOk = true)
    (hch2 : env2.chownOk = true) (hcm2 : env2.chmodOk = true) :
    (mkdir_permissive env path s).1 = 0 ∧
    fsGet (mkdir_permissive env path s).2.fs path = some ⟨getuid s.uids, 511⟩ ∧
    (mkdir_permissive env2 path (mkdir_permissive env path s).2).1 = 0 ∧
    fsGet (mkdir_permissive env2 path (mkdir_permissive env path s).2).2.fs path
      = some ⟨getuid s.uids, 511⟩ := by
  have hok' : (fsGet s.fs path).isSome ∨ env.mkdirOk = true := by
    rcases hok with h | h
    · exact Or.inl (by simpa using h)
    · exact Or.inr h
  obtain ⟨h1, h2⟩ := mkdir_permissive_success env path s hok' hch hcm
  have hsome : (fsGet (mkdir_permissive env path s).2.fs path).isSome := by
    rw [h2]; rfl
  obtain ⟨h3, h4⟩ := mkdir_permissive_success env2 path _ (Or.inl hsome) hch2 hcm2
  rw [mkdir_permissive_uids] at h4
  exact ⟨h1, h2, h3, h4⟩

/-- Witness for C9's amended theorem: the path pre-exists with alien
owner and mode (and `mkdir` would fail, exercising EEXIST tolerance);
both calls succeed and leave owner 3 (the current real uid) and mode
0777, with umask 077 in force. -/
theorem claim_C9_amended_witness :
    (mkdir_permissive ⟨false, true, true⟩ "/x"
        ⟨⟨3, 7, 0⟩, -1, -1, ∅, [("/x", ⟨9, 0⟩)], 63⟩).1 = 0 ∧
    fsGet (mkdir_permissive ⟨false, true, true⟩ "/x"
        ⟨⟨3, 7, 0⟩, -1, -1, ∅, [("/x", ⟨9, 0⟩)], 63⟩).2.fs ("/x") = some ⟨3, 511⟩ ∧
    (mkdir_permissive ⟨true, true, true⟩ "/x"
        (mkdir_permissive ⟨false, true, true⟩ "/x"
          ⟨⟨3, 7, 0⟩, -1, -1, ∅, [("/x", ⟨9, 0⟩)], 63⟩).2).1 = 0 ∧
    fsGet (mkdir_permissive ⟨true, true, true⟩ "/x"
        (mkdir_permissive ⟨false, true, true⟩ "/x"
          ⟨⟨3, 7, 0⟩, -1, -1, ∅, [("/x", ⟨9, 0⟩)], 63⟩).2).2.fs ("/x") = some ⟨3, 511⟩ :=
  claim_C9_amended ⟨false, true, true⟩ ⟨true, true, true⟩ "/x"
    ⟨⟨3, 7, 0⟩, -1, -1, ∅, [("/x", ⟨9, 0⟩)], 63⟩
    (Or.inl (by decide)) rfl rfl rfl rfl

/-! ## C10: run_command resolves the command as a literal path -/

/-- C10: the exec step treats the command vector's first element as a
literal filesystem path: its outcome is determined by that path's
executability alone, is invariant under every value of the PATH search
list, and when the exec fails the step's -1 return becomes the loop's
outcome (`run_command` is the terminal Enter step). -/
theorem claim_C10_execv_ignores_search_path (cfg : Config) (o : Oracle) (s : St)
    (r : Int) (first : String) (rest : List String) (P : List String)
    (hcmd : cfg.command = first :: rest) :
    (first ∉ o.execPaths →
      drive [run_command cfg { o with searchPath := P }] s r = .exited (-1)) ∧
    (first ∈ o.execPaths →
      drive [run_command cfg { o with searchPath := P }] s r = .execed cfg.command s) ∧
    (enterSteps cfg o).getLast? = some (run_command cfg o) := by
  refine ⟨?_, ?_, rfl⟩
  · intro hmem
    simp [drive, run_command, hcmd, hmem]
  · intro hmem
    simp [drive, run_command, hcmd, hmem]

/-- Witness for C10: with `/bin/true` not among the executable paths the
loop exits with -1 whatever PATH holds, and with it executable the
process image is replaced; in both cases PATH is ["/bin"] and would have
resolved a bare name. -/
theorem claim_C10_witness :
    drive [run_command cfgA
        { okOracle with execPaths := [], searchPath := ["/bin"] }] stA 7
      = .exited (-1) ∧
    drive [run_command cfgA { okOracle with searchPath := ["/bin"] }] stA 7
      = .execed ["/bin/true"] stA := by
  constructor
  · exact (claim_C10_execv_ignores_search_path cfgA
      { okOracle with execPaths := [] } stA 7 ("/bin/true") [] ["/bin"] rfl).1
      (by decide)
  · exact (claim_C10_execv_ignores_search_path cfgA
      okOracle stA 7 ("/bin/true") [] ["/bin"] rfl).2.1 (by decide)

end Spfs
